import Mathlib

/-!
Verification of the fleetmdm agent fragments: the osquery-backed UUID
subcommand (`orbit/cmd/orbit/openframe_uuid.go`), two revisions of the
cleanup subcommand (`orbit/cmd/orbit/openframe_cleanup.go` and the
OpenFrame revision), and the container bootstrap entrypoints.

The Go code is shallowly embedded: filesystem state is a list of existing
paths, external side effects (path removals, subprocess invocations) are
recorded in an explicit effect trace, and subprocess outcomes (osquery
exit status / parsed JSON, `os.RemoveAll` failures) are oracle inputs.
-/

set_option autoImplicit false

namespace FleetMDM

/-! ## JSON values, as produced by `json.Unmarshal` into `[]map[string]interface{}` -/

/-- A parsed JSON value (`interface{}` in the Go code). -/
inductive JVal where
  | str (s : String)
  | num (n : Int)
  | boolean (b : Bool)
  | null
  | arr (elems : List JVal)
  | obj (fields : List (String × JVal))

/-- One row of an osquery JSON result (`map[string]interface{}`);
Go maps have unique keys, looked up here with `List.lookup`. -/
abbrev Row := List (String × JVal)

/-- Outcome of running the osqueryd subprocess in `getHostUUID`:
`exitOk` is whether `cmd.Run()` returned nil, and `parsed` is the result of
`json.Unmarshal` on captured standard output (`none` = parse failure).
The `os.MkdirAll` step preceding the invocation is outside this model: its
failure precludes any subprocess invocation. -/
structure OsqueryOutcome where
  exitOk : Bool
  parsed : Option (List Row)

/-- Embedding of `getHostUUID` (openframe_uuid.go lines 93-135): the returned
pair is Go's `(string, error)`, with `none` as the nil error. -/
def getHostUUID (o : OsqueryOutcome) : String × Option String :=
  match o.parsed with
  | none =>
      if o.exitOk then ("", some "failed to parse osqueryd output")
      else ("", some "osqueryd failed")
  | some result =>
      if result.length = 1 then
        match result with
        | [row] =>
            match row.lookup "uuid" with
            | some (JVal.str u) => (u, none)
            | _ => ("", some "UUID field not found or not a string")
        | _ => ("", some ("expected 1 row from UUID query, got " ++ toString result.length))
      else ("", some ("expected 1 row from UUID query, got " ++ toString result.length))

/-- Embedding of the tail of `uuidAction` (openframe_uuid.go lines 80-90):
the printed stdout lines paired with the returned error.  On a `getHostUUID`
failure the command returns before printing anything. -/
def uuidActionOutput (jsonFlag : Bool) (o : OsqueryOutcome) : List String × Option String :=
  match getHostUUID o with
  | (u, none) =>
      if jsonFlag then (["\x7b\"uuid\":\"" ++ u ++ "\"\x7d"], none)
      else ([u], none)
  | (_, some e) => ([], some ("failed to get host UUID: " ++ e))

/-! ## Filesystem paths -/

/-- A filesystem path as its list of components; `filepath.Join root name`
becomes appending one component. -/
abbrev Path := List String

/-- `filepath.Join dir name` for a single trailing component. -/
def joinP (dir : Path) (name : String) : Path := dir ++ [name]

/-- `p` is `root` itself or lies below it (what `filepath.Walk root` visits). -/
def isUnder (root p : Path) : Bool := List.isPrefixOf root p

/-- `p` lies strictly below `root`. -/
def strictlyUnder (root p : Path) : Bool := List.isPrefixOf root p && !(p == root)

/-- Go checks `strings.HasSuffix(path, ".old")` on the joined path string;
since the suffix contains no separator this holds exactly when the final
path component ends in `.old`. -/
def hasOldSuffix (p : Path) : Bool :=
  match p.getLast? with
  | some c => List.isSuffixOf ".old".toList c.toList
  | none => false

/-! ## Environment and effect traces for the cleanup command -/

/-- The value of `runtime.GOOS`, restricted to the platforms the code
branches on. -/
inductive Goos where
  | darwin
  | linux
  | windows
deriving DecidableEq

/-- A state-changing external action: `os.RemoveAll` on a path, or an
`exec.Command` invocation (stop/unload/kill/registry-edit commands).
Printing to stdout is not an effect. -/
inductive Effect where
  | removePath (p : Path)
  | runCmd (argv : List String)
deriving DecidableEq

/-- The ambient machine state and oracles an invocation runs against:
the platform, the POSIX effective-uid-is-root test, the outcome of the
Windows `net session` admin probe, the set of existing paths, and an
oracle telling which `os.RemoveAll` calls fail. -/
structure Env where
  goos : Goos
  euidIsRoot : Bool
  winAdminOk : Bool
  fs : List Path
  removeFails : Path → Bool

/-- Embedding of `hasAdminPrivileges`: `net session` success on Windows,
`os.Geteuid() == 0` elsewhere. -/
def hasAdminPrivileges (env : Env) : Bool :=
  match env.goos with
  | .windows => env.winAdminOk
  | _ => env.euidIsRoot

/-- Embedding of `getDefaultRootDir`; the Windows `%ProgramFiles%` value is
kept as a symbolic component. -/
def getDefaultRootDir (goos : Goos) : Path :=
  match goos with
  | .darwin => ["opt", "orbit"]
  | .windows => ["ProgramFiles", "Orbit"]
  | .linux => ["opt", "orbit"]

/-- A successful `os.RemoveAll p` deletes `p` and everything below it. -/
def removeSubtree (fs : List Path) (p : Path) : List Path :=
  fs.filter (fun q => !(isUnder p q))

/-- Embedding of `getLogPaths`: three fixed entries under the root plus an
OS-specific system log directory (the Windows one rooted at the symbolic
`%SystemRoot%`). -/
def getLogPaths (goos : Goos) (rootDir : Path) : List Path :=
  [joinP rootDir "osquery_log",
   joinP rootDir "orbit.stderr.log",
   joinP rootDir "orbit.stdout.log"] ++
  (match goos with
   | .darwin | .linux => [["var", "log", "orbit"]]
   | .windows => [["SystemRoot", "system32", "config", "systemprofile",
                   "AppData", "Local", "FleetDM", "Orbit", "Logs"]])

/-- The paths `filepath.Walk rootDir` visits: every existing path at or
below the root.  (On a real filesystem a path below the root exists only if
the root does; the model does not need that invariant.) -/
def walkPaths (fs : List Path) (rootDir : Path) : List Path :=
  fs.filter (fun p => isUnder rootDir p)

/-- Embedding of `getCachePaths` (identical in both cleanup revisions):
three fixed entries plus every walked path ending in `.old`. -/
def getCachePaths (fs : List Path) (rootDir : Path) : List Path :=
  [joinP rootDir "shell",
   joinP rootDir "update-metadata",
   joinP rootDir "updates.json"] ++
  (walkPaths fs rootDir).filter (fun p => hasOldSuffix p)

/-- Modelled from the spec: the orbit `constant` package is not among the
provided sources; the spec names this file as the node identity key. -/
def OrbitNodeKeyFileName : String := "orbit_node_key"

/-- Modelled from the spec: the desktop session token file name from the
orbit `constant` package (not in the provided sources). -/
def DesktopTokenFileName : String := "desktop_token"

/-- Modelled from the spec: the enrollment secret file name from the orbit
`constant` package (not in the provided sources). -/
def OsqueryEnrollSecretFileName : String := "enroll_secret"

/-- Modelled from the spec: the server-override config file name from the
orbit `constant` package (not in the provided sources). -/
def ServerOverridesFileName : String := "server_overrides.json"

/-- Embedding of `getSecretPaths` (identical in both cleanup revisions). -/
def getSecretPaths (rootDir : Path) : List Path :=
  [joinP rootDir OrbitNodeKeyFileName,
   joinP rootDir DesktopTokenFileName,
   joinP rootDir OsqueryEnrollSecretFileName,
   joinP rootDir ServerOverridesFileName,
   joinP rootDir "osquery.db",
   joinP rootDir "osquery.db-wal",
   joinP rootDir "osquery.db-shm"]

/-! ## The standard cleanup revision (`openframe_cleanup.go`) -/

namespace Orbit

/-- Embedding of the `cleanupResults` accumulator; errors are kept as
messages. -/
structure CleanupResults where
  filesRemoved : List FleetMDM.Path
  servicesRemoved : List String
  errors : List String
deriving DecidableEq

/-- The state threaded through one cleanup invocation: the live filesystem,
the results accumulator, the trace of state-changing effects, and the list
of category banners printed so far (recording which categories were
processed, in order). -/
structure CState where
  fs : List FleetMDM.Path
  results : CleanupResults
  effects : List FleetMDM.Effect
  categories : List String
deriving DecidableEq

/-- Embedding of `removePathIfExists` (openframe_cleanup.go lines 396-414):
skip missing paths; in dry-run only record the path; otherwise attempt
`os.RemoveAll`, recording an error on failure (`rf` is the failure oracle)
and the removed path on success.  A failed `RemoveAll` is modelled as
leaving the filesystem unchanged. -/
def removePathIfExists (rf : FleetMDM.Path → Bool) (p : FleetMDM.Path) (dryRun : Bool)
    (s : CState) : CState :=
  if !(s.fs.contains p) then s
  else if dryRun then
    { s with results := { s.results with filesRemoved := s.results.filesRemoved ++ [p] } }
  else if rf p then
    { s with results := { s.results with errors := s.results.errors ++ ["failed to remove"] },
             effects := s.effects ++ [FleetMDM.Effect.removePath p] }
  else
    { s with fs := FleetMDM.removeSubtree s.fs p,
             results := { s.results with filesRemoved := s.results.filesRemoved ++ [p] },
             effects := s.effects ++ [FleetMDM.Effect.removePath p] }

/-- The removal loop each category runs over its path list. -/
def removePaths (rf : FleetMDM.Path → Bool) (paths : List FleetMDM.Path) (dryRun : Bool)
    (s : CState) : CState :=
  paths.foldl (fun acc p => removePathIfExists rf p dryRun acc) s

/-- A best-effort `exec.Command` whose error is ignored: in dry-run the
command is only printed, otherwise it is executed. -/
def runBestEffort (argv : List String) (dryRun : Bool) (s : CState) : CState :=
  if dryRun then s else { s with effects := s.effects ++ [FleetMDM.Effect.runCmd argv] }

/-- Embedding of `stopOrbitServiceMacOS` (lines 187-205). -/
def stopOrbitServiceMacOS (dryRun : Bool) (s : CState) : CState :=
  let s := runBestEffort ["launchctl", "stop", "com.fleetdm.orbit"] dryRun s
  let s := runBestEffort
    ["launchctl", "unload", "/Library/LaunchDaemons/com.fleetdm.orbit.plist"] dryRun s
  let s := runBestEffort ["pkill", "fleet-desktop"] dryRun s
  { s with results :=
      { s.results with servicesRemoved := s.results.servicesRemoved ++ ["com.fleetdm.orbit"] } }

/-- Embedding of `stopOrbitServiceLinux` (lines 207-225). -/
def stopOrbitServiceLinux (dryRun : Bool) (s : CState) : CState :=
  let s := runBestEffort ["systemctl", "stop", "orbit.service"] dryRun s
  let s := runBestEffort ["systemctl", "disable", "orbit.service"] dryRun s
  let s := runBestEffort ["pkill", "-f", "fleet-desktop"] dryRun s
  { s with results :=
      { s.results with servicesRemoved := s.results.servicesRemoved ++ ["orbit.service"] } }

/-- Embedding of `stopOrbitServiceWindows` (lines 227-244). -/
def stopOrbitServiceWindows (dryRun : Bool) (s : CState) : CState :=
  let s := runBestEffort ["net", "stop", "Fleet osquery"] dryRun s
  let s := runBestEffort ["taskkill", "/F", "/IM", "fleet-desktop.exe"] dryRun s
  { s with results :=
      { s.results with servicesRemoved := s.results.servicesRemoved ++ ["Fleet osquery"] } }

/-- Embedding of `stopOrbitService` (lines 172-185); the banner print is
recorded as the `stop-service` category. -/
def stopOrbitService (goos : FleetMDM.Goos) (dryRun : Bool) (s : CState) : CState :=
  let s := { s with categories := s.categories ++ ["stop-service"] }
  match goos with
  | .darwin => stopOrbitServiceMacOS dryRun s
  | .linux => stopOrbitServiceLinux dryRun s
  | .windows => stopOrbitServiceWindows dryRun s

/-- Embedding of `cleanLogFiles`. -/
def cleanLogFiles (goos : FleetMDM.Goos) (rf : FleetMDM.Path → Bool) (rootDir : FleetMDM.Path)
    (dryRun : Bool) (s : CState) : CState :=
  let s := { s with categories := s.categories ++ ["logs"] }
  removePaths rf (FleetMDM.getLogPaths goos rootDir) dryRun s

/-- Embedding of `cleanCacheFiles`; the path list is computed by walking the
filesystem as it stands when the category runs. -/
def cleanCacheFiles (rf : FleetMDM.Path → Bool) (rootDir : FleetMDM.Path)
    (dryRun : Bool) (s : CState) : CState :=
  let s := { s with categories := s.categories ++ ["cache"] }
  removePaths rf (FleetMDM.getCachePaths s.fs rootDir) dryRun s

/-- Embedding of `cleanSecretFiles`. -/
def cleanSecretFiles (rf : FleetMDM.Path → Bool) (rootDir : FleetMDM.Path)
    (dryRun : Bool) (s : CState) : CState :=
  let s := { s with categories := s.categories ++ ["secrets"] }
  removePaths rf (FleetMDM.getSecretPaths rootDir) dryRun s

/-- The two PowerShell registry-edit commands of `cleanWindowsRegistry`. -/
def registryCommands : List String :=
  ["Get-ChildItem \"HKLM:\\SOFTWARE\\Microsoft\\Windows\\CurrentVersion\\Uninstall\" | Where-Object \x7b (Get-ItemProperty $_.PSPath).DisplayName -eq \"Fleet osquery\" \x7d | Remove-Item -Recurse -Force",
   "Remove-Item \"HKLM:\\SYSTEM\\CurrentControlSet\\Services\\Fleet osquery\" -Recurse -Force -ErrorAction SilentlyContinue"]

/-- Embedding of `cleanWindowsRegistry` (lines 320-342). -/
def cleanWindowsRegistry (goos : FleetMDM.Goos) (dryRun : Bool) (s : CState) : CState :=
  if goos ≠ FleetMDM.Goos.windows then s
  else
    let s := { s with categories := s.categories ++ ["registry"] }
    registryCommands.foldl
      (fun acc regCmd => runBestEffort ["powershell", "-Command", regCmd] dryRun acc) s

/-- Embedding of `cleanServiceFiles` (lines 277-317). -/
def cleanServiceFiles (goos : FleetMDM.Goos) (rf : FleetMDM.Path → Bool)
    (dryRun : Bool) (s : CState) : CState :=
  let s := { s with categories := s.categories ++ ["service-files"] }
  match goos with
  | .darwin =>
      let s := removePaths rf
        [["Library", "LaunchDaemons", "com.fleetdm.orbit.plist"],
         ["usr", "local", "bin", "orbit"]] dryRun s
      runBestEffort ["pkgutil", "--forget", "com.fleetdm.orbit.base.pkg"] dryRun s
  | .linux =>
      let s := removePaths rf
        [["usr", "lib", "systemd", "system", "orbit.service"],
         ["etc", "default", "orbit"],
         ["usr", "local", "bin", "orbit"]] dryRun s
      runBestEffort ["systemctl", "daemon-reload"] dryRun s
  | .windows => s

/-- The flag set of the `cleanup` subcommand. -/
structure Flags where
  all : Bool
  logs : Bool
  cache : Bool
  secrets : Bool
  registry : Bool
  service : Bool
  dryRun : Bool
  force : Bool
deriving DecidableEq

/-- At least one category flag is set (otherwise help is shown). -/
def Flags.anySelected (f : Flags) : Bool :=
  f.all || f.logs || f.cache || f.secrets || f.registry || f.service

/-- The outcome of one `cleanupAction` call: the returned error (`none` is
the nil error) plus the final state. -/
structure CleanupRun where
  err : Option String
  state : CState

/-- The state at entry: nothing removed yet, no effects, no categories. -/
def initState (env : FleetMDM.Env) : CState :=
  { fs := env.fs,
    results := { filesRemoved := [], servicesRemoved := [], errors := [] },
    effects := [], categories := [] }

/-- The category pipeline of `cleanupAction` (openframe_cleanup.go lines
97-131), entered once the privilege, help and confirmation gates have
passed: stop the service, then logs, cache, secrets, registry (Windows
only) and service files, each guarded by its flag (or `--all`). -/
def runPipeline (env : FleetMDM.Env) (f : Flags) (rootDir : FleetMDM.Path) : CState :=
  let rf := env.removeFails
  let s0 := initState env
  let s1 := if f.all || f.service then stopOrbitService env.goos f.dryRun s0 else s0
  let s2 := if f.all || f.logs then cleanLogFiles env.goos rf rootDir f.dryRun s1 else s1
  let s3 := if f.all || f.cache then cleanCacheFiles rf rootDir f.dryRun s2 else s2
  let s4 := if f.all || f.secrets then cleanSecretFiles rf rootDir f.dryRun s3 else s3
  let s5 := if f.all || f.registry then
              (if env.goos = FleetMDM.Goos.windows then
                 cleanWindowsRegistry env.goos f.dryRun s4
               else s4)
            else s4
  if f.all || f.service then cleanServiceFiles env.goos rf f.dryRun s5 else s5

/-- Embedding of `cleanupAction` (openframe_cleanup.go lines 57-138):
privilege check, root-dir default, help when no category is selected,
interactive confirmation gate (`response` is the `fmt.Scanln` word), then
the category pipeline; the returned error is non-nil exactly when the error
list is non-empty.  The `--root-dir` flag is `rootDirArg` (`none` = unset). -/
def cleanupAction (env : FleetMDM.Env) (f : Flags) (rootDirArg : Option FleetMDM.Path)
    (response : String) : CleanupRun :=
  if !(FleetMDM.hasAdminPrivileges env) then
    { err := some "This command requires administrator/root privileges",
      state := initState env }
  else
    let rootDir := match rootDirArg with
      | some d => d
      | none => FleetMDM.getDefaultRootDir env.goos
    if !f.anySelected then
      { err := none, state := initState env }
    else if !f.force && !f.dryRun && response != "y" && response != "Y" then
      { err := none, state := initState env }
    else
      let s6 := runPipeline env f rootDir
      { err := if s6.results.errors.length > 0 then
                 some ("cleanup completed with " ++ toString s6.results.errors.length ++ " errors")
               else none,
        state := s6 }

end Orbit

/-! ## The OpenFrame cleanup revision (`src/unnamed/part_000`) -/

namespace OpenFrame

/-- Embedding of the OpenFrame revision's `cleanupResults`: it records
killed processes rather than removed services, and has no dry-run mode. -/
structure CleanupResults where
  filesRemoved : List FleetMDM.Path
  processesKilled : List String
  errors : List String
deriving DecidableEq

/-- The state threaded through one OpenFrame cleanup invocation. -/
structure CState where
  fs : List FleetMDM.Path
  results : CleanupResults
  effects : List FleetMDM.Effect
  categories : List String
deriving DecidableEq

/-- Embedding of the OpenFrame `removePathIfExists` (part_000 lines
196-210): as the standard revision's, but with no dry-run branch. -/
def removePathIfExists (rf : FleetMDM.Path → Bool) (p : FleetMDM.Path) (s : CState) : CState :=
  if !(s.fs.contains p) then s
  else if rf p then
    { s with results := { s.results with errors := s.results.errors ++ ["failed to remove"] },
             effects := s.effects ++ [FleetMDM.Effect.removePath p] }
  else
    { s with fs := FleetMDM.removeSubtree s.fs p,
             results := { s.results with filesRemoved := s.results.filesRemoved ++ [p] },
             effects := s.effects ++ [FleetMDM.Effect.removePath p] }

/-- The removal loop over a category's path list. -/
def removePaths (rf : FleetMDM.Path → Bool) (paths : List FleetMDM.Path) (s : CState) : CState :=
  paths.foldl (fun acc p => removePathIfExists rf p acc) s

/-- Embedding of `stopOsqueryd` (part_000 lines 87-113): `pkill osqueryd`
on darwin/linux, `taskkill /F /IM osqueryd.exe` on windows, errors ignored;
the `osquerydPath` argument is unused by the source as well. -/
def stopOsqueryd (goos : FleetMDM.Goos) (osquerydPath : String) (s : CState) : CState :=
  let _ := osquerydPath
  let s := { s with categories := s.categories ++ ["stop-osqueryd"] }
  match goos with
  | .darwin | .linux =>
      { s with effects := s.effects ++ [FleetMDM.Effect.runCmd ["pkill", "osqueryd"]],
               results := { s.results with
                 processesKilled := s.results.processesKilled ++ ["osqueryd"] } }
  | .windows =>
      { s with effects := s.effects ++
                 [FleetMDM.Effect.runCmd ["taskkill", "/F", "/IM", "osqueryd.exe"]],
               results := { s.results with
                 processesKilled := s.results.processesKilled ++ ["osqueryd.exe"] } }

/-- Embedding of the OpenFrame `cleanLogFiles`. -/
def cleanLogFiles (goos : FleetMDM.Goos) (rf : FleetMDM.Path → Bool) (rootDir : FleetMDM.Path)
    (s : CState) : CState :=
  let s := { s with categories := s.categories ++ ["logs"] }
  removePaths rf (FleetMDM.getLogPaths goos rootDir) s

/-- Embedding of the OpenFrame `cleanCacheFiles`. -/
def cleanCacheFiles (rf : FleetMDM.Path → Bool) (rootDir : FleetMDM.Path) (s : CState) : CState :=
  let s := { s with categories := s.categories ++ ["cache"] }
  removePaths rf (FleetMDM.getCachePaths s.fs rootDir) s

/-- Embedding of the OpenFrame `cleanSecretFiles`. -/
def cleanSecretFiles (rf : FleetMDM.Path → Bool) (rootDir : FleetMDM.Path) (s : CState) : CState :=
  let s := { s with categories := s.categories ++ ["secrets"] }
  removePaths rf (FleetMDM.getSecretPaths rootDir) s

/-- The outcome of one OpenFrame `cleanupAction` call. -/
structure CleanupRun where
  err : Option String
  state : CState

/-- The state at entry. -/
def initState (env : FleetMDM.Env) : CState :=
  { fs := env.fs,
    results := { filesRemoved := [], processesKilled := [], errors := [] },
    effects := [], categories := [] }

/-- Embedding of the OpenFrame `cleanupAction` (part_000 lines 34-67):
requires only the `--openframe-mode` flag (no privilege check, no
confirmation, no dry-run), stops osqueryd, then unconditionally cleans
logs, cache and secrets. -/
def cleanupAction (env : FleetMDM.Env) (openframeMode : Bool) (osquerydPath : String)
    (rootDirArg : Option FleetMDM.Path) : CleanupRun :=
  if !openframeMode then
    { err := some "This command only works in OpenFrame mode", state := initState env }
  else
    let rootDir := match rootDirArg with
      | some d => d
      | none => FleetMDM.getDefaultRootDir env.goos
    let rf := env.removeFails
    let s0 := initState env
    let s1 := stopOsqueryd env.goos osquerydPath s0
    let s2 := cleanLogFiles env.goos rf rootDir s1
    let s3 := cleanCacheFiles rf rootDir s2
    let s4 := cleanSecretFiles rf rootDir s3
    { err := if s4.results.errors.length > 0 then
               some ("cleanup completed with " ++ toString s4.results.errors.length ++ " errors")
             else none,
      state := s4 }

end OpenFrame

/-! ## Statement helpers for the cleanup claims -/

/-- The subprocess invocations recorded in an effect trace. -/
def runCmds (effects : List Effect) : List (List String) :=
  effects.filterMap (fun e => match e with
    | Effect.runCmd argv => some argv
    | Effect.removePath _ => none)

/-- The osqueryd kill command the OpenFrame cleanup issues per platform. -/
def osqKillCmd (goos : Goos) : List String :=
  match goos with
  | .windows => ["taskkill", "/F", "/IM", "osqueryd.exe"]
  | _ => ["pkill", "osqueryd"]

/-- Is the effect a removal attempt that the oracle says fails? -/
def isFailedRemove (rf : Path → Bool) : Effect → Bool
  | .removePath p => rf p
  | .runCmd _ => false

/-- The number of failed removal attempts recorded in an effect trace. -/
def countFailedRemovals (rf : Path → Bool) (effects : List Effect) : Nat :=
  (effects.filter (isFailedRemove rf)).length

namespace Orbit

/-- The running invariant behind the error report: the number of recorded
errors equals the number of failed removal attempts in the effect trace. -/
def ErrInv (rf : FleetMDM.Path → Bool) (s : CState) : Prop :=
  s.results.errors.length = FleetMDM.countFailedRemovals rf s.effects

/-- The category banners a gated `cleanupAction` run prints, as a function
of the flags and platform alone (independent of the filesystem and of which
removals fail). -/
def selectedCategories (goos : FleetMDM.Goos) (f : Flags) : List String :=
  (if f.all || f.service then ["stop-service"] else []) ++
  (if f.all || f.logs then ["logs"] else []) ++
  (if f.all || f.cache then ["cache"] else []) ++
  (if f.all || f.secrets then ["secrets"] else []) ++
  (if f.all || f.registry then
     (if goos = FleetMDM.Goos.windows then ["registry"] else []) else []) ++
  (if f.all || f.service then ["service-files"] else [])

/-- Modelled from the spec: the fail-fast cleanup revision (spec section
4.2, "a later variant fails fast, aborting the whole operation on the first
removal error") is not among the provided sources.  Scanning a category's
path list, the first existing path whose removal fails aborts. -/
def firstRemovalError (rf : FleetMDM.Path → Bool) (fs : List FleetMDM.Path) :
    List FleetMDM.Path → Option FleetMDM.Path
  | [] => none
  | p :: ps =>
      if fs.contains p && rf p then some p else firstRemovalError rf fs ps

/-- Modelled from the spec: the fail-fast cleanup pipeline — categories
(named, with their path lists) are processed in order; the first category
hitting a removal error aborts the run, so later categories are never
attempted.  Returns the processed category names and whether the run
aborted. -/
def cleanupFailFast (rf : FleetMDM.Path → Bool) (fs : List FleetMDM.Path) :
    List (String × List FleetMDM.Path) → List String × Bool
  | [] => ([], false)
  | (name, paths) :: rest =>
      match firstRemovalError rf fs paths with
      | some _ => ([name], true)
      | none =>
          let r := cleanupFailFast rf fs rest
          (name :: r.1, r.2)

end Orbit

/-! ## Bootstrap entrypoints -/

namespace Bootstrap

/-- An observable step of the bootstrap flow. -/
inductive BootEvent where
  | probe (dep : String) (attempt : Nat)
  | sleepSecs (n : Nat)
  | prepareDb
  | serveFleet
deriving DecidableEq

/-- Is the event a TCP probe? -/
def isProbe : BootEvent → Bool
  | .probe _ _ => true
  | _ => false

/-- Is the event a sleep? -/
def isSleep : BootEvent → Bool
  | .sleepSecs _ => true
  | _ => false

/-- Modelled from the spec: the provided entrypoint scripts wait for MySQL
and Redis with unbounded `nc -z` polling loops (`entrypoint.sh` lines
16-32); the bounded-retry variant the spec describes (section 4.3, "a
bounded retry count producing a hard failure") is not among the provided
sources.  Following the spec's words and the scripts' loop shape: probe the
dependency once per attempt (`reachable i` is whether attempt `i`'s TCP
connection succeeds), sleep the fixed 2-second interval after each failed
probe, succeed at the first reachable probe, and fail hard once the
maximum number of attempts is exhausted. -/
def waitForDep (reachable : Nat → Bool) (dep : String) : Nat → Nat → Bool × List BootEvent
  | 0, _ => (false, [])
  | Nat.succ k, i =>
      if reachable i then (true, [BootEvent.probe dep i])
      else
        let r := waitForDep reachable dep k (i + 1)
        (r.1, BootEvent.probe dep i :: BootEvent.sleepSecs 2 :: r.2)

/-- Modelled from the spec: the bounded-retry bootstrap — wait for MySQL,
then for Redis, and only once both are reachable run `fleet prepare db` and
start the server (`entrypoint.sh` lines 16-36 with the spec's bounded
retry); on exhaustion the script fails hard without reaching the
schema-preparation command. -/
def entrypointBounded (mysqlReach redisReach : Nat → Bool) (maxAttempts : Nat) :
    Bool × List BootEvent :=
  let m := waitForDep mysqlReach "mysql" maxAttempts 0
  if m.1 then
    let r := waitForDep redisReach "redis" maxAttempts 0
    if r.1 then (true, m.2 ++ r.2 ++ [BootEvent.prepareDb, BootEvent.serveFleet])
    else (false, m.2 ++ r.2)
  else (false, m.2)

end Bootstrap

/-! ## Concrete fixtures used by witnesses and counterexamples -/

/-- A rooted linux host with one orbit log file (dry-run exercises). -/
def envC2 : Env :=
  { goos := Goos.linux, euidIsRoot := true, winAdminOk := false,
    fs := [["opt", "orbit", "orbit.stdout.log"]], removeFails := fun _ => false }

/-- The flag set `--all --dry-run`. -/
def flagsC2 : Orbit.Flags :=
  { all := true, logs := false, cache := false, secrets := false,
    registry := false, service := false, dryRun := true, force := true }

/-- A rooted linux host with an empty data directory (error-policy run). -/
def envC3 : Env :=
  { goos := Goos.linux, euidIsRoot := true, winAdminOk := false,
    fs := [], removeFails := fun _ => false }

/-- The flag set `--logs --secrets --force`. -/
def flagsC3 : Orbit.Flags :=
  { all := false, logs := true, cache := false, secrets := true,
    registry := false, service := false, dryRun := false, force := true }

/-- A linux host running without root (privilege-gate exercises). -/
def envC6 : Env :=
  { goos := Goos.linux, euidIsRoot := false, winAdminOk := false,
    fs := [["opt", "orbit", "orbit.stdout.log"]], removeFails := fun _ => false }

/-- A rooted linux host with an empty data directory (OpenFrame run). -/
def envC7 : Env :=
  { goos := Goos.linux, euidIsRoot := true, winAdminOk := false,
    fs := [], removeFails := fun _ => false }

/-- A rooted linux host with one orbit log file (confirmation gate). -/
def envC8 : Env :=
  { goos := Goos.linux, euidIsRoot := true, winAdminOk := false,
    fs := [["opt", "orbit", "orbit.stdout.log"]], removeFails := fun _ => false }

/-- The flag set `--logs` alone: no `--force`, no `--dry-run`. -/
def flagsC8 : Orbit.Flags :=
  { all := false, logs := true, cache := false, secrets := false,
    registry := false, service := false, dryRun := false, force := false }

/-! # Theorems

Helper lemmas first, then one theorem (plus witness / counterexample) per
claim. -/

theorem countFailedRemovals_append (rf : Path → Bool) (a b : List Effect) :
    countFailedRemovals rf (a ++ b) =
      countFailedRemovals rf a + countFailedRemovals rf b := by
  simp [countFailedRemovals, List.filter_append]

/-! ## The UUID flow (claims C1 and C4) -/

/-- C1: for every osquery subprocess invocation whose standard output parses
as a JSON array containing exactly one object with a string `uuid` field,
`getHostUUID` returns that string verbatim with a nil error, whether the
subprocess exit status was zero (`exitOk = true`) or not. -/
theorem getHostUUID_single_row_verbatim (exitOk : Bool) (row : Row) (u : String)
    (h : row.lookup "uuid" = some (JVal.str u)) :
    getHostUUID ⟨exitOk, some [row]⟩ = (u, none) := by
  simp [getHostUUID, h]

/-- Witness for C1: a concrete single-row parse, at both exit statuses. -/
theorem getHostUUID_single_row_verbatim_witness :
    getHostUUID ⟨false, some [[("uuid", JVal.str "9F3A-77")]]⟩ = ("9F3A-77", none) ∧
    getHostUUID ⟨true, some [[("uuid", JVal.str "9F3A-77")]]⟩ = ("9F3A-77", none) :=
  ⟨getHostUUID_single_row_verbatim false [("uuid", JVal.str "9F3A-77")] "9F3A-77" rfl,
   getHostUUID_single_row_verbatim true [("uuid", JVal.str "9F3A-77")] "9F3A-77" rfl⟩

/-- C4: when the parsed JSON array has a length other than 1, or its single
row lacks a string `uuid` field, `getHostUUID` returns the empty string with
a descriptive error, and the `uuid` command prints no UUID output. -/
theorem getHostUUID_bad_rows_error (o : OsqueryOutcome) (rows : List Row) (jsonFlag : Bool)
    (hp : o.parsed = some rows)
    (hbad : rows.length ≠ 1 ∨
      ∀ row, rows = [row] → ∀ u, row.lookup "uuid" ≠ some (JVal.str u)) :
    (∃ msg, getHostUUID o = ("", some msg)) ∧
    (∃ msg, uuidActionOutput jsonFlag o = ([], some msg)) := by
  have h1 : ∃ msg, getHostUUID o = ("", some msg) := by
    match rows, hbad with
    | [], _ => simp [getHostUUID, hp]
    | [row], hbad =>
        rcases hbad with hlen | hrow
        · simp at hlen
        · cases hlk : row.lookup "uuid" with
          | none => simp [getHostUUID, hp, hlk]
          | some v =>
              match v, hlk with
              | JVal.str u, hlk => exact absurd hlk (hrow row rfl u)
              | JVal.num n, hlk => simp [getHostUUID, hp, hlk]
              | JVal.boolean b, hlk => simp [getHostUUID, hp, hlk]
              | JVal.null, hlk => simp [getHostUUID, hp, hlk]
              | JVal.arr xs, hlk => simp [getHostUUID, hp, hlk]
              | JVal.obj kvs, hlk => simp [getHostUUID, hp, hlk]
    | r1 :: r2 :: rs, _ => simp [getHostUUID, hp]
  obtain ⟨msg, hmsg⟩ := h1
  exact ⟨⟨msg, hmsg⟩, ⟨"failed to get host UUID: " ++ msg, by simp [uuidActionOutput, hmsg]⟩⟩

/-- Witness for C4: an empty result array yields an error and no output. -/
theorem getHostUUID_bad_rows_error_witness :
    (∃ msg, getHostUUID ⟨true, some []⟩ = ("", some msg)) ∧
    (∃ msg, uuidActionOutput false ⟨true, some []⟩ = ([], some msg)) :=
  getHostUUID_bad_rows_error ⟨true, some []⟩ [] false rfl (Or.inl (by decide))

/-! ## Claim C10: `removePathIfExists` on a missing path -/

/-- C10: in both cleanup revisions, `removePathIfExists` on a path that does
not exist at check time is a complete no-op: the filesystem, the results
accumulator (removed list and error list) and the effect trace are all left
exactly as they were. -/
theorem removePathIfExists_noop_when_absent (rf : Path → Bool) (p : Path) (d : Bool)
    (s : Orbit.CState) (s2 : OpenFrame.CState)
    (h : s.fs.contains p = false) (h2 : s2.fs.contains p = false) :
    Orbit.removePathIfExists rf p d s = s ∧ OpenFrame.removePathIfExists rf p s2 = s2 := by
  constructor
  · unfold Orbit.removePathIfExists
    rw [h]
    simp
  · unfold OpenFrame.removePathIfExists
    rw [h2]
    simp

/-- Witness for C10 at a concrete state in each revision. -/
theorem removePathIfExists_noop_when_absent_witness :
    (Orbit.removePathIfExists (fun _ => false) ["opt", "orbit", "gone"] false
        { fs := [["opt", "orbit", "orbit.stdout.log"]],
          results := { filesRemoved := [], servicesRemoved := [], errors := [] },
          effects := [], categories := [] } =
      { fs := [["opt", "orbit", "orbit.stdout.log"]],
        results := { filesRemoved := [], servicesRemoved := [], errors := [] },
        effects := [], categories := [] }) ∧
    (OpenFrame.removePathIfExists (fun _ => false) ["opt", "orbit", "gone"]
        { fs := [["opt", "orbit", "orbit.stdout.log"]],
          results := { filesRemoved := [], processesKilled := [], errors := [] },
          effects := [], categories := [] } =
      { fs := [["opt", "orbit", "orbit.stdout.log"]],
        results := { filesRemoved := [], processesKilled := [], errors := [] },
        effects := [], categories := [] }) :=
  removePathIfExists_noop_when_absent _ _ _ _ _ (by decide) (by decide)

/-! ## Lemmas about the standard cleanup pipeline -/

namespace Orbit

theorem removePathIfExists_categories (rf : FleetMDM.Path → Bool) (p : FleetMDM.Path)
    (d : Bool) (s : CState) :
    (removePathIfExists rf p d s).categories = s.categories := by
  unfold removePathIfExists
  split_ifs <;> rfl

theorem removePaths_categories (rf : FleetMDM.Path → Bool) (paths : List FleetMDM.Path)
    (d : Bool) (s : CState) :
    (removePaths rf paths d s).categories = s.categories := by
  induction paths generalizing s with
  | nil => rfl
  | cons p ps ih =>
      show (removePaths rf ps d (removePathIfExists rf p d s)).categories = s.categories
      exact (ih _).trans (removePathIfExists_categories rf p d s)

theorem runBestEffort_categories (a : List String) (d : Bool) (s : CState) :
    (runBestEffort a d s).categories = s.categories := by
  unfold runBestEffort
  split_ifs <;> rfl

theorem stopOrbitService_categories (goos : FleetMDM.Goos) (d : Bool) (s : CState) :
    (stopOrbitService goos d s).categories = s.categories ++ ["stop-service"] := by
  cases goos <;>
    simp [stopOrbitService, stopOrbitServiceMacOS, stopOrbitServiceLinux,
      stopOrbitServiceWindows, runBestEffort_categories]

theorem cleanLogFiles_categories (goos : FleetMDM.Goos) (rf : FleetMDM.Path → Bool)
    (rootDir : FleetMDM.Path) (d : Bool) (s : CState) :
    (cleanLogFiles goos rf rootDir d s).categories = s.categories ++ ["logs"] := by
  simp [cleanLogFiles, removePaths_categories]

theorem cleanCacheFiles_categories (rf : FleetMDM.Path → Bool)
    (rootDir : FleetMDM.Path) (d : Bool) (s : CState) :
    (cleanCacheFiles rf rootDir d s).categories = s.categories ++ ["cache"] := by
  simp [cleanCacheFiles, removePaths_categories]

theorem cleanSecretFiles_categories (rf : FleetMDM.Path → Bool)
    (rootDir : FleetMDM.Path) (d : Bool) (s : CState) :
    (cleanSecretFiles rf rootDir d s).categories = s.categories ++ ["secrets"] := by
  simp [cleanSecretFiles, removePaths_categories]

theorem registryFold_categories (d : Bool) (cmds : List String) (s : CState) :
    (cmds.foldl (fun acc regCmd => runBestEffort ["powershell", "-Command", regCmd] d acc)
        s).categories = s.categories := by
  induction cmds generalizing s with
  | nil => rfl
  | cons c cs ih =>
      rw [List.foldl_cons, ih, runBestEffort_categories]

theorem cleanWindowsRegistry_categories (goos : FleetMDM.Goos) (d : Bool) (s : CState) :
    (cleanWindowsRegistry goos d s).categories =
      s.categories ++ (if goos = FleetMDM.Goos.windows then ["registry"] else []) := by
  cases goos <;> simp [cleanWindowsRegistry, registryFold_categories]

theorem cleanServiceFiles_categories (goos : FleetMDM.Goos) (rf : FleetMDM.Path → Bool)
    (d : Bool) (s : CState) :
    (cleanServiceFiles goos rf d s).categories = s.categories ++ ["service-files"] := by
  cases goos <;>
    simp [cleanServiceFiles, removePaths_categories, runBestEffort_categories]

theorem runPipeline_categories (env : FleetMDM.Env) (f : Flags) (rootDir : FleetMDM.Path) :
    (runPipeline env f rootDir).categories = selectedCategories env.goos f := by
  unfold runPipeline selectedCategories
  split_ifs <;>
    simp_all [stopOrbitService_categories, cleanLogFiles_categories,
      cleanCacheFiles_categories, cleanSecretFiles_categories,
      cleanWindowsRegistry_categories, cleanServiceFiles_categories, initState]

theorem removePathIfExists_dry (rf : FleetMDM.Path → Bool) (p : FleetMDM.Path) (s : CState) :
    (removePathIfExists rf p true s).effects = s.effects ∧
    (removePathIfExists rf p true s).fs = s.fs := by
  unfold removePathIfExists
  split_ifs <;> simp_all

theorem removePaths_dry (rf : FleetMDM.Path → Bool) (paths : List FleetMDM.Path) (s : CState) :
    (removePaths rf paths true s).effects = s.effects ∧
    (removePaths rf paths true s).fs = s.fs := by
  induction paths generalizing s with
  | nil => exact ⟨rfl, rfl⟩
  | cons p ps ih =>
      have h1 := removePathIfExists_dry rf p s
      have h2 := ih (removePathIfExists rf p true s)
      exact ⟨h2.1.trans h1.1, h2.2.trans h1.2⟩

theorem runBestEffort_dry (a : List String) (s : CState) : runBestEffort a true s = s := by
  simp [runBestEffort]

theorem stopOrbitService_dry (goos : FleetMDM.Goos) (s : CState) :
    (stopOrbitService goos true s).effects = s.effects ∧
    (stopOrbitService goos true s).fs = s.fs := by
  cases goos <;>
    simp [stopOrbitService, stopOrbitServiceMacOS, stopOrbitServiceLinux,
      stopOrbitServiceWindows, runBestEffort_dry]

theorem cleanLogFiles_dry (goos : FleetMDM.Goos) (rf : FleetMDM.Path → Bool)
    (rootDir : FleetMDM.Path) (s : CState) :
    (cleanLogFiles goos rf rootDir true s).effects = s.effects ∧
    (cleanLogFiles goos rf rootDir true s).fs = s.fs := by
  simp [cleanLogFiles, removePaths_dry]

theorem cleanCacheFiles_dry (rf : FleetMDM.Path → Bool) (rootDir : FleetMDM.Path) (s : CState) :
    (cleanCacheFiles rf rootDir true s).effects = s.effects ∧
    (cleanCacheFiles rf rootDir true s).fs = s.fs := by
  simp [cleanCacheFiles, removePaths_dry]

theorem cleanSecretFiles_dry (rf : FleetMDM.Path → Bool) (rootDir : FleetMDM.Path) (s : CState) :
    (cleanSecretFiles rf rootDir true s).effects = s.effects ∧
    (cleanSecretFiles rf rootDir true s).fs = s.fs := by
  simp [cleanSecretFiles, removePaths_dry]

theorem registryFold_dry (cmds : List String) (s : CState) :
    cmds.foldl (fun acc regCmd => runBestEffort ["powershell", "-Command", regCmd] true acc)
      s = s := by
  induction cmds generalizing s with
  | nil => rfl
  | cons c cs ih => rw [List.foldl_cons, runBestEffort_dry, ih]

theorem cleanWindowsRegistry_dry (goos : FleetMDM.Goos) (s : CState) :
    (cleanWindowsRegistry goos true s).effects = s.effects ∧
    (cleanWindowsRegistry goos true s).fs = s.fs := by
  cases goos <;> simp [cleanWindowsRegistry, registryFold_dry]

theorem cleanServiceFiles_dry (goos : FleetMDM.Goos) (rf : FleetMDM.Path → Bool) (s : CState) :
    (cleanServiceFiles goos rf true s).effects = s.effects ∧
    (cleanServiceFiles goos rf true s).fs = s.fs := by
  cases goos <;>
    simp [cleanServiceFiles, removePaths_dry, runBestEffort_dry]

theorem runPipeline_dry (env : FleetMDM.Env) (f : Flags) (rootDir : FleetMDM.Path)
    (h : f.dryRun = true) :
    (runPipeline env f rootDir).effects = [] ∧ (runPipeline env f rootDir).fs = env.fs := by
  unfold runPipeline
  rw [h]
  split_ifs <;>
    simp_all [stopOrbitService_dry, cleanLogFiles_dry, cleanCacheFiles_dry,
      cleanSecretFiles_dry, cleanWindowsRegistry_dry, cleanServiceFiles_dry, initState]

theorem errInv_init (env : FleetMDM.Env) (rf : FleetMDM.Path → Bool) :
    ErrInv rf (initState env) := by
  simp [ErrInv, initState, FleetMDM.countFailedRemovals]

theorem removePathIfExists_errInv (rf : FleetMDM.Path → Bool) (p : FleetMDM.Path) (d : Bool)
    (s : CState) (h : ErrInv rf s) : ErrInv rf (removePathIfExists rf p d s) := by
  unfold ErrInv removePathIfExists at *
  split_ifs with h1 h2 h3 <;>
    simp_all [FleetMDM.countFailedRemovals_append, FleetMDM.countFailedRemovals,
      FleetMDM.isFailedRemove]

theorem removePaths_errInv (rf : FleetMDM.Path → Bool) (paths : List FleetMDM.Path) (d : Bool)
    (s : CState) (h : ErrInv rf s) : ErrInv rf (removePaths rf paths d s) := by
  induction paths generalizing s with
  | nil => exact h
  | cons p ps ih => exact ih _ (removePathIfExists_errInv rf p d s h)

theorem runBestEffort_errInv (rf : FleetMDM.Path → Bool) (a : List String) (d : Bool)
    (s : CState) (h : ErrInv rf s) : ErrInv rf (runBestEffort a d s) := by
  unfold ErrInv runBestEffort at *
  split_ifs <;>
    simp_all [FleetMDM.countFailedRemovals_append, FleetMDM.countFailedRemovals,
      FleetMDM.isFailedRemove]

theorem stopOrbitService_errInv (goos : FleetMDM.Goos) (rf : FleetMDM.Path → Bool) (d : Bool)
    (s : CState) (h : ErrInv rf s) : ErrInv rf (stopOrbitService goos d s) := by
  have hbanner : ErrInv rf { s with categories := s.categories ++ ["stop-service"] } := h
  cases goos with
  | darwin =>
      have h1 := runBestEffort_errInv rf ["launchctl", "stop", "com.fleetdm.orbit"] d _ hbanner
      have h2 := runBestEffort_errInv rf
        ["launchctl", "unload", "/Library/LaunchDaemons/com.fleetdm.orbit.plist"] d _ h1
      have h3 := runBestEffort_errInv rf ["pkill", "fleet-desktop"] d _ h2
      simpa [stopOrbitService, stopOrbitServiceMacOS, ErrInv] using h3
  | linux =>
      have h1 := runBestEffort_errInv rf ["systemctl", "stop", "orbit.service"] d _ hbanner
      have h2 := runBestEffort_errInv rf ["systemctl", "disable", "orbit.service"] d _ h1
      have h3 := runBestEffort_errInv rf ["pkill", "-f", "fleet-desktop"] d _ h2
      simpa [stopOrbitService, stopOrbitServiceLinux, ErrInv] using h3
  | windows =>
      have h1 := runBestEffort_errInv rf ["net", "stop", "Fleet osquery"] d _ hbanner
      have h2 := runBestEffort_errInv rf ["taskkill", "/F", "/IM", "fleet-desktop.exe"] d _ h1
      simpa [stopOrbitService, stopOrbitServiceWindows, ErrInv] using h2

theorem cleanLogFiles_errInv (goos : FleetMDM.Goos) (rf : FleetMDM.Path → Bool)
    (rootDir : FleetMDM.Path) (d : Bool) (s : CState) (h : ErrInv rf s) :
    ErrInv rf (cleanLogFiles goos rf rootDir d s) := by
  have hbanner : ErrInv rf { s with categories := s.categories ++ ["logs"] } := h
  exact removePaths_errInv rf _ d _ hbanner

theorem cleanCacheFiles_errInv (rf : FleetMDM.Path → Bool) (rootDir : FleetMDM.Path) (d : Bool)
    (s : CState) (h : ErrInv rf s) : ErrInv rf (cleanCacheFiles rf rootDir d s) := by
  have hbanner : ErrInv rf { s with categories := s.categories ++ ["cache"] } := h
  exact removePaths_errInv rf _ d _ hbanner

theorem cleanSecretFiles_errInv (rf : FleetMDM.Path → Bool) (rootDir : FleetMDM.Path) (d : Bool)
    (s : CState) (h : ErrInv rf s) : ErrInv rf (cleanSecretFiles rf rootDir d s) := by
  have hbanner : ErrInv rf { s with categories := s.categories ++ ["secrets"] } := h
  exact removePaths_errInv rf _ d _ hbanner

theorem registryFold_errInv (rf : FleetMDM.Path → Bool) (d : Bool) (cmds : List String)
    (s : CState) (h : ErrInv rf s) :
    ErrInv rf (cmds.foldl
      (fun acc regCmd => runBestEffort ["powershell", "-Command", regCmd] d acc) s) := by
  induction cmds generalizing s with
  | nil => exact h
  | cons c cs ih => exact ih _ (runBestEffort_errInv rf _ d s h)

theorem cleanWindowsRegistry_errInv (goos : FleetMDM.Goos) (rf : FleetMDM.Path → Bool)
    (d : Bool) (s : CState) (h : ErrInv rf s) : ErrInv rf (cleanWindowsRegistry goos d s) := by
  have hbanner : ErrInv rf { s with categories := s.categories ++ ["registry"] } := h
  cases goos with
  | windows => exact registryFold_errInv rf d registryCommands _ hbanner
  | darwin => exact h
  | linux => exact h

theorem cleanServiceFiles_errInv (goos : FleetMDM.Goos) (rf : FleetMDM.Path → Bool) (d : Bool)
    (s : CState) (h : ErrInv rf s) : ErrInv rf (cleanServiceFiles goos rf d s) := by
  have hbanner : ErrInv rf { s with categories := s.categories ++ ["service-files"] } := h
  cases goos with
  | darwin =>
      have h1 := removePaths_errInv rf
        [["Library", "LaunchDaemons", "com.fleetdm.orbit.plist"],
         ["usr", "local", "bin", "orbit"]] d _ hbanner
      exact runBestEffort_errInv rf _ d _ h1
  | linux =>
      have h1 := removePaths_errInv rf
        [["usr", "lib", "systemd", "system", "orbit.service"],
         ["etc", "default", "orbit"],
         ["usr", "local", "bin", "orbit"]] d _ hbanner
      exact runBestEffort_errInv rf _ d _ h1
  | windows => exact hbanner

theorem errInv_ite (rf : FleetMDM.Path → Bool) (c : Prop) [Decidable c]
    (F : CState → CState) (hF : ∀ x, ErrInv rf x → ErrInv rf (F x))
    (s : CState) (h : ErrInv rf s) : ErrInv rf (if c then F s else s) := by
  split_ifs with hc
  · exact hF s h
  · exact h

theorem runPipeline_errInv (env : FleetMDM.Env) (f : Flags) (rootDir : FleetMDM.Path) :
    ErrInv env.removeFails (runPipeline env f rootDir) := by
  unfold runPipeline
  exact errInv_ite env.removeFails _
    (cleanServiceFiles env.goos env.removeFails f.dryRun)
    (cleanServiceFiles_errInv env.goos env.removeFails f.dryRun) _
    (errInv_ite env.removeFails _
      (fun x => if env.goos = FleetMDM.Goos.windows then
          cleanWindowsRegistry env.goos f.dryRun x else x)
      (fun x hx => errInv_ite env.removeFails _
        (cleanWindowsRegistry env.goos f.dryRun)
        (cleanWindowsRegistry_errInv env.goos env.removeFails f.dryRun) x hx)
      _
      (errInv_ite env.removeFails _
        (cleanSecretFiles env.removeFails rootDir f.dryRun)
        (cleanSecretFiles_errInv env.removeFails rootDir f.dryRun) _
        (errInv_ite env.removeFails _
          (cleanCacheFiles env.removeFails rootDir f.dryRun)
          (cleanCacheFiles_errInv env.removeFails rootDir f.dryRun) _
          (errInv_ite env.removeFails _
            (cleanLogFiles env.goos env.removeFails rootDir f.dryRun)
            (cleanLogFiles_errInv env.goos env.removeFails rootDir f.dryRun) _
            (errInv_ite env.removeFails _
              (stopOrbitService env.goos f.dryRun)
              (stopOrbitService_errInv env.goos env.removeFails f.dryRun) _
              (errInv_init env env.removeFails))))))

theorem errReport_isSome_iff (n : Nat) (m : String) :
    (if n > 0 then some m else (none : Option String)).isSome ↔ n > 0 := by
  split_ifs with h <;> simp [h]

end Orbit

/-! ## Claim C2: dry-run is effect-free -/

/-- C2: with `--dry-run` set, for every combination of category flags (and
any privilege state, response and root dir), the cleanup command removes no path and
executes no external stop/remove command — the effect trace is empty and
the filesystem is unchanged. -/
theorem cleanup_dry_run_no_effects (env : Env) (f : Orbit.Flags)
    (rootDirArg : Option Path) (response : String) (h : f.dryRun = true) :
    (Orbit.cleanupAction env f rootDirArg response).state.effects = [] ∧
    (Orbit.cleanupAction env f rootDirArg response).state.fs = env.fs := by
  unfold Orbit.cleanupAction
  split_ifs <;>
    simp_all [Orbit.initState, Orbit.runPipeline_dry]

/-- Witness for C2: an `--all --dry-run` invocation on a concrete host. -/
theorem cleanup_dry_run_no_effects_witness :
    (Orbit.cleanupAction envC2 flagsC2 none "").state.effects = [] ∧
    (Orbit.cleanupAction envC2 flagsC2 none "").state.fs = envC2.fs :=
  cleanup_dry_run_no_effects envC2 flagsC2 none "" rfl

/-! ## Claim C3: continue-on-error policy and error reporting -/

/-- C3: a gated run of the standard (continue-on-error) cleanup command
attempts every selected category — the processed-category list is a
function of the flags and platform alone, independent of which removals
fail — the reported error count equals the number of failed removal
attempts in the effect trace, and the command returns an error exactly when
at least one error was recorded.  Under the spec-modelled fail-fast
variant, a category hitting a removal error aborts the run and later
categories are not attempted. -/
theorem cleanup_error_policy (env : Env) (f : Orbit.Flags) (rootDirArg : Option Path)
    (response : String) (rf2 : Path → Bool) (fs2 : List Path) (name : String)
    (paths : List Path) (rest : List (String × List Path)) (p : Path)
    (hpriv : hasAdminPrivileges env = true) (hsel : f.anySelected = true)
    (hgate : f.force = true ∨ f.dryRun = true ∨ response = "y" ∨ response = "Y")
    (hff : Orbit.firstRemovalError rf2 fs2 paths = some p) :
    (Orbit.cleanupAction env f rootDirArg response).state.categories =
      Orbit.selectedCategories env.goos f ∧
    (Orbit.cleanupAction env f rootDirArg response).state.results.errors.length =
      countFailedRemovals env.removeFails
        (Orbit.cleanupAction env f rootDirArg response).state.effects ∧
    ((Orbit.cleanupAction env f rootDirArg response).err.isSome ↔
      (Orbit.cleanupAction env f rootDirArg response).state.results.errors.length > 0) ∧
    Orbit.cleanupFailFast rf2 fs2 ((name, paths) :: rest) = ([name], true) := by
  have hc : (!f.force && !f.dryRun && response != "y" && response != "Y") = false := by
    rcases hgate with h | h | h | h <;> simp [h]
  have hrun : Orbit.cleanupAction env f rootDirArg response =
      { err := if (Orbit.runPipeline env f (match rootDirArg with
                    | some d => d
                    | none => getDefaultRootDir env.goos)).results.errors.length > 0 then
                 some ("cleanup completed with " ++
                   toString (Orbit.runPipeline env f (match rootDirArg with
                     | some d => d
                     | none => getDefaultRootDir env.goos)).results.errors.length ++ " errors")
               else none,
        state := Orbit.runPipeline env f (match rootDirArg with
          | some d => d
          | none => getDefaultRootDir env.goos) } := by
    unfold Orbit.cleanupAction
    rw [hpriv, hsel, hc]
    simp
  rw [hrun]
  refine ⟨Orbit.runPipeline_categories env f _, Orbit.runPipeline_errInv env f _, ?_, ?_⟩
  · exact Orbit.errReport_isSome_iff _ _
  · simp [Orbit.cleanupFailFast, hff]

/-- Witness for C3: `--logs --secrets --force` on a concrete host, and a
concrete first-category failure for the fail-fast variant. -/
theorem cleanup_error_policy_witness :
    (Orbit.cleanupAction envC3 flagsC3 none "n").state.categories =
      Orbit.selectedCategories envC3.goos flagsC3 ∧
    (Orbit.cleanupAction envC3 flagsC3 none "n").state.results.errors.length =
      countFailedRemovals envC3.removeFails
        (Orbit.cleanupAction envC3 flagsC3 none "n").state.effects ∧
    ((Orbit.cleanupAction envC3 flagsC3 none "n").err.isSome ↔
      (Orbit.cleanupAction envC3 flagsC3 none "n").state.results.errors.length > 0) ∧
    Orbit.cleanupFailFast (fun _ => true) [["x"]] [("logs", [["x"]]), ("cache", [])] =
      (["logs"], true) :=
  cleanup_error_policy envC3 flagsC3 none "n" (fun _ => true) [["x"]] "logs" [["x"]]
    [("cache", [])] ["x"] (by decide) (by decide) (Or.inl rfl) (by decide)

/-! ## Claim C6: the privilege gate (corrected) -/

/-- C6 counterexample: the claim says the privilege check guards "every
provided revision", but the OpenFrame revision performs no privilege check
at all — run as a non-root user on linux it returns success, processes
categories and attempts a removal rather than failing up front. -/
theorem openframe_no_privilege_check_counterexample :
    hasAdminPrivileges envC6 = false ∧
    (OpenFrame.cleanupAction envC6 true "osqueryd" (some ["opt", "orbit"])).err = none ∧
    Effect.removePath ["opt", "orbit", "orbit.stdout.log"] ∈
      (OpenFrame.cleanupAction envC6 true "osqueryd" (some ["opt", "orbit"])).state.effects ∧
    (OpenFrame.cleanupAction envC6 true "osqueryd" (some ["opt", "orbit"])).state.categories ≠
      [] := by
  decide

/-- C6 amended: in the standard cleanup revision (openframe_cleanup.go), a
failed privilege check makes the command return an error before any
category is processed and before any filesystem mutation or process stop;
the OpenFrame revision performs no privilege check. -/
theorem orbit_privilege_gate (env : Env) (f : Orbit.Flags) (rootDirArg : Option Path)
    (response : String) (h : hasAdminPrivileges env = false) :
    (Orbit.cleanupAction env f rootDirArg response).err.isSome ∧
    (Orbit.cleanupAction env f rootDirArg response).state.effects = [] ∧
    (Orbit.cleanupAction env f rootDirArg response).state.categories = [] ∧
    (Orbit.cleanupAction env f rootDirArg response).state.fs = env.fs ∧
    (Orbit.cleanupAction env f rootDirArg response).state.results.filesRemoved = [] ∧
    (Orbit.cleanupAction env f rootDirArg response).state.results.servicesRemoved = [] := by
  unfold Orbit.cleanupAction
  rw [h]
  simp [Orbit.initState]

/-- Witness for the amended C6 on a concrete non-root host. -/
theorem orbit_privilege_gate_witness :
    (Orbit.cleanupAction envC6 flagsC8 none "y").err.isSome ∧
    (Orbit.cleanupAction envC6 flagsC8 none "y").state.effects = [] ∧
    (Orbit.cleanupAction envC6 flagsC8 none "y").state.categories = [] ∧
    (Orbit.cleanupAction envC6 flagsC8 none "y").state.fs = envC6.fs ∧
    (Orbit.cleanupAction envC6 flagsC8 none "y").state.results.filesRemoved = [] ∧
    (Orbit.cleanupAction envC6 flagsC8 none "y").state.results.servicesRemoved = [] :=
  orbit_privilege_gate envC6 flagsC8 none "y" (by decide)

/-! ## Claim C8: the interactive confirmation gate -/

/-- C8: without `--force` and without `--dry-run`, a run of the standard
cleanup command that reads any response other than "y" or "Y" exits with
success (nil error) having performed no destructive action: no effect is
recorded, the filesystem is unchanged and no category was processed. -/
theorem orbit_confirmation_gate (env : Env) (f : Orbit.Flags) (rootDirArg : Option Path)
    (response : String) (hpriv : hasAdminPrivileges env = true)
    (hsel : f.anySelected = true) (hforce : f.force = false) (hdry : f.dryRun = false)
    (h1 : response ≠ "y") (h2 : response ≠ "Y") :
    (Orbit.cleanupAction env f rootDirArg response).err = none ∧
    (Orbit.cleanupAction env f rootDirArg response).state.effects = [] ∧
    (Orbit.cleanupAction env f rootDirArg response).state.categories = [] ∧
    (Orbit.cleanupAction env f rootDirArg response).state.fs = env.fs ∧
    (Orbit.cleanupAction env f rootDirArg response).state.results.filesRemoved = [] := by
  have hc : (!f.force && !f.dryRun && response != "y" && response != "Y") = true := by
    simp [hforce, hdry, h1, h2]
  unfold Orbit.cleanupAction
  rw [hpriv, hsel, hc]
  simp [Orbit.initState]

/-- Witness for C8: response "n" on a concrete rooted host with `--logs`. -/
theorem orbit_confirmation_gate_witness :
    (Orbit.cleanupAction envC8 flagsC8 none "n").err = none ∧
    (Orbit.cleanupAction envC8 flagsC8 none "n").state.effects = [] ∧
    (Orbit.cleanupAction envC8 flagsC8 none "n").state.categories = [] ∧
    (Orbit.cleanupAction envC8 flagsC8 none "n").state.fs = envC8.fs ∧
    (Orbit.cleanupAction envC8 flagsC8 none "n").state.results.filesRemoved = [] :=
  orbit_confirmation_gate envC8 flagsC8 none "n" (by decide) (by decide) rfl rfl
    (by decide) (by decide)

/-! ## Claim C7: OpenFrame cleanup stops only osqueryd -/

theorem mem_runCmds (argv : List String) (es : List Effect) :
    argv ∈ runCmds es ↔ Effect.runCmd argv ∈ es := by
  induction es with
  | nil => simp [runCmds]
  | cons e es ih =>
      cases e with
      | removePath p =>
          rw [show runCmds (Effect.removePath p :: es) = runCmds es from rfl, ih]
          simp
      | runCmd a =>
          rw [show runCmds (Effect.runCmd a :: es) = a :: runCmds es from rfl]
          simp [ih]

namespace OpenFrame

theorem removePathIfExists_runCmds (rf : FleetMDM.Path → Bool) (p : FleetMDM.Path)
    (s : CState) :
    FleetMDM.runCmds (removePathIfExists rf p s).effects = FleetMDM.runCmds s.effects := by
  unfold removePathIfExists
  split_ifs <;> simp [FleetMDM.runCmds, List.filterMap_append]

theorem removePaths_runCmds (rf : FleetMDM.Path → Bool) (paths : List FleetMDM.Path)
    (s : CState) :
    FleetMDM.runCmds (removePaths rf paths s).effects = FleetMDM.runCmds s.effects := by
  induction paths generalizing s with
  | nil => rfl
  | cons p ps ih =>
      show FleetMDM.runCmds (removePaths rf ps (removePathIfExists rf p s)).effects =
        FleetMDM.runCmds s.effects
      rw [ih, removePathIfExists_runCmds]

theorem cleanLogFiles_runCmds (goos : FleetMDM.Goos) (rf : FleetMDM.Path → Bool)
    (rootDir : FleetMDM.Path) (s : CState) :
    FleetMDM.runCmds (cleanLogFiles goos rf rootDir s).effects =
      FleetMDM.runCmds s.effects := by
  simp [cleanLogFiles, removePaths_runCmds]

theorem cleanCacheFiles_runCmds (rf : FleetMDM.Path → Bool) (rootDir : FleetMDM.Path)
    (s : CState) :
    FleetMDM.runCmds (cleanCacheFiles rf rootDir s).effects =
      FleetMDM.runCmds s.effects := by
  simp [cleanCacheFiles, removePaths_runCmds]

theorem cleanSecretFiles_runCmds (rf : FleetMDM.Path → Bool) (rootDir : FleetMDM.Path)
    (s : CState) :
    FleetMDM.runCmds (cleanSecretFiles rf rootDir s).effects =
      FleetMDM.runCmds s.effects := by
  simp [cleanSecretFiles, removePaths_runCmds]

theorem stopOsqueryd_runCmds (goos : FleetMDM.Goos) (osquerydPath : String) (s : CState) :
    FleetMDM.runCmds (stopOsqueryd goos osquerydPath s).effects =
      FleetMDM.runCmds s.effects ++ [FleetMDM.osqKillCmd goos] := by
  cases goos <;>
    simp [stopOsqueryd, FleetMDM.runCmds, List.filterMap_append, FleetMDM.osqKillCmd]

theorem pipeline_runCmds (env : FleetMDM.Env) (rd : FleetMDM.Path) (osquerydPath : String) :
    FleetMDM.runCmds (cleanSecretFiles env.removeFails rd
      (cleanCacheFiles env.removeFails rd
        (cleanLogFiles env.goos env.removeFails rd
          (stopOsqueryd env.goos osquerydPath (initState env))))).effects =
      [FleetMDM.osqKillCmd env.goos] := by
  rw [cleanSecretFiles_runCmds, cleanCacheFiles_runCmds, cleanLogFiles_runCmds,
    stopOsqueryd_runCmds]
  simp [initState, FleetMDM.runCmds]

theorem cleanupAction_runCmds (env : FleetMDM.Env) (mode : Bool) (osquerydPath : String)
    (rootDirArg : Option FleetMDM.Path) :
    FleetMDM.runCmds (cleanupAction env mode osquerydPath rootDirArg).state.effects =
      (if mode then [FleetMDM.osqKillCmd env.goos] else []) := by
  cases mode with
  | false => rfl
  | true =>
      cases rootDirArg with
      | none => exact pipeline_runCmds env (FleetMDM.getDefaultRootDir env.goos) osquerydPath
      | some d => exact pipeline_runCmds env d osquerydPath

end OpenFrame

/-- C7: every subprocess command the OpenFrame cleanup mode executes is the
per-platform osqueryd kill (by process name or image name); in particular
it never runs any of the commands that stop, unload or disable the orbit
monitoring service or kill the fleet-desktop companion process. -/
theorem openframe_stops_only_osqueryd (env : Env) (mode : Bool) (osquerydPath : String)
    (rootDirArg : Option Path) (argv : List String)
    (hmem : Effect.runCmd argv ∈
      (OpenFrame.cleanupAction env mode osquerydPath rootDirArg).state.effects) :
    argv = osqKillCmd env.goos ∧
    argv ≠ ["launchctl", "stop", "com.fleetdm.orbit"] ∧
    argv ≠ ["launchctl", "unload", "/Library/LaunchDaemons/com.fleetdm.orbit.plist"] ∧
    argv ≠ ["systemctl", "stop", "orbit.service"] ∧
    argv ≠ ["systemctl", "disable", "orbit.service"] ∧
    argv ≠ ["pkill", "fleet-desktop"] ∧
    argv ≠ ["pkill", "-f", "fleet-desktop"] ∧
    argv ≠ ["net", "stop", "Fleet osquery"] ∧
    argv ≠ ["taskkill", "/F", "/IM", "fleet-desktop.exe"] := by
  have h1 : argv ∈ runCmds
      (OpenFrame.cleanupAction env mode osquerydPath rootDirArg).state.effects :=
    (mem_runCmds argv _).mpr hmem
  rw [OpenFrame.cleanupAction_runCmds] at h1
  cases mode with
  | false => simp at h1
  | true =>
      simp at h1
      subst h1
      cases hg : env.goos <;> decide

/-- Witness for C7: the linux OpenFrame run does execute `pkill osqueryd`. -/
theorem openframe_stops_only_osqueryd_witness :
    ["pkill", "osqueryd"] = osqKillCmd envC7.goos ∧
    ["pkill", "osqueryd"] ≠ ["launchctl", "stop", "com.fleetdm.orbit"] ∧
    ["pkill", "osqueryd"] ≠
      ["launchctl", "unload", "/Library/LaunchDaemons/com.fleetdm.orbit.plist"] ∧
    ["pkill", "osqueryd"] ≠ ["systemctl", "stop", "orbit.service"] ∧
    ["pkill", "osqueryd"] ≠ ["systemctl", "disable", "orbit.service"] ∧
    ["pkill", "osqueryd"] ≠ ["pkill", "fleet-desktop"] ∧
    ["pkill", "osqueryd"] ≠ ["pkill", "-f", "fleet-desktop"] ∧
    ["pkill", "osqueryd"] ≠ ["net", "stop", "Fleet osquery"] ∧
    ["pkill", "osqueryd"] ≠ ["taskkill", "/F", "/IM", "fleet-desktop.exe"] :=
  openframe_stops_only_osqueryd envC7 true "osqueryd" none ["pkill", "osqueryd"] (by decide)

/-! ## Claim C5: the cache path computation (corrected) -/

theorem getCachePaths_filter_eq (fs : List Path) (root : Path)
    (h : hasOldSuffix root = false) :
    (walkPaths fs root).filter (fun p => hasOldSuffix p) =
      fs.filter (fun p => hasOldSuffix p && strictlyUnder root p) := by
  unfold walkPaths
  rw [List.filter_filter]
  apply List.filter_congr
  intro x hx
  by_cases hxr : x = root
  · subst hxr
    simp [h]
  · have hne : (x == root) = false := by simp [hxr]
    simp [strictlyUnder, isUnder, hne]

/-- C5 counterexample: the claim promises `getCachePaths` returns exactly
the three fixed cache entries plus the `.old` entries contained in the
root, and nothing else — but when the root directory's own path ends in
`.old`, the recursive walk (which visits the root itself) adds the root as
a fourth kind of entry. -/
theorem getCachePaths_root_old_counterexample :
    ["r.old"] ∈ getCachePaths [["r.old"]] ["r.old"] ∧
    ["r.old"] ≠ joinP ["r.old"] "shell" ∧
    ["r.old"] ≠ joinP ["r.old"] "update-metadata" ∧
    ["r.old"] ≠ joinP ["r.old"] "updates.json" ∧
    strictlyUnder ["r.old"] ["r.old"] = false := by
  decide

/-- C5 amended: provided the root directory's own path does not end in the
legacy-backup suffix, `getCachePaths` returns exactly the three fixed cache
entries (shell temporary directory, update-metadata cache, updates.json)
plus the existing entries strictly below the root whose names end in
`.old`, and nothing else; in particular its length is 3 plus the number of
such `.old` entries. -/
theorem getCachePaths_exact (fs : List Path) (root p : Path)
    (h : hasOldSuffix root = false) :
    (p ∈ getCachePaths fs root ↔
      (p = joinP root "shell" ∨ p = joinP root "update-metadata" ∨
       p = joinP root "updates.json" ∨
       (p ∈ fs ∧ hasOldSuffix p = true ∧ strictlyUnder root p = true))) ∧
    (getCachePaths fs root).length =
      3 + (fs.filter (fun q => hasOldSuffix q && strictlyUnder root q)).length := by
  have hf := getCachePaths_filter_eq fs root h
  unfold getCachePaths
  rw [hf]
  constructor
  · simp [List.mem_filter]
  · simp
    omega

/-- Witness for the amended C5: one `.old` file below a clean root. -/
theorem getCachePaths_exact_witness :
    (["opt", "orbit", "backup.old"] ∈
        getCachePaths [["opt", "orbit"], ["opt", "orbit", "backup.old"]] ["opt", "orbit"] ↔
      (["opt", "orbit", "backup.old"] = joinP ["opt", "orbit"] "shell" ∨
       ["opt", "orbit", "backup.old"] = joinP ["opt", "orbit"] "update-metadata" ∨
       ["opt", "orbit", "backup.old"] = joinP ["opt", "orbit"] "updates.json" ∨
       (["opt", "orbit", "backup.old"] ∈
          [["opt", "orbit"], ["opt", "orbit", "backup.old"]] ∧
        hasOldSuffix ["opt", "orbit", "backup.old"] = true ∧
        strictlyUnder ["opt", "orbit"] ["opt", "orbit", "backup.old"] = true))) ∧
    (getCachePaths [["opt", "orbit"], ["opt", "orbit", "backup.old"]]
        ["opt", "orbit"]).length =
      3 + ([["opt", "orbit"], ["opt", "orbit", "backup.old"]].filter
        (fun q => hasOldSuffix q && strictlyUnder ["opt", "orbit"] q)).length :=
  getCachePaths_exact _ _ _ (by decide)

/-! ## Claim C9: the bounded-retry bootstrap -/

namespace Bootstrap

theorem waitForDep_all_fail (reachable : Nat → Bool) (dep : String)
    (h : ∀ n, reachable n = false) (k : Nat) : ∀ i : Nat,
    (waitForDep reachable dep k i).1 = false ∧
    ((waitForDep reachable dep k i).2.filter isProbe).length = k ∧
    (waitForDep reachable dep k i).2.filter isSleep =
      List.replicate k (BootEvent.sleepSecs 2) ∧
    ∀ e ∈ (waitForDep reachable dep k i).2, isProbe e = true ∨ isSleep e = true := by
  induction k with
  | zero => intro i; simp [waitForDep]
  | succ k ih =>
      intro i
      obtain ⟨h1, h2, h3, h4⟩ := ih (i + 1)
      refine ⟨by simp [waitForDep, h i, h1], ?_, ?_, ?_⟩
      · simp [waitForDep, h i, isProbe, isSleep, h2]
      · simp [waitForDep, h i, isProbe, isSleep, h3, List.replicate_succ]
      · intro e he
        simp [waitForDep, h i] at he
        rcases he with rfl | rfl | he
        · simp [isProbe]
        · simp [isSleep]
        · exact h4 e he

end Bootstrap

/-- C9: in the (spec-modelled) bounded-retry bootstrap variant, when the
MySQL dependency address never accepts a TCP connection, the readiness loop
probes exactly `maxAttempts` times, sleeps the fixed 2-second interval
between attempts, terminates with a hard failure, and the schema
preparation command `fleet prepare db` is never invoked. -/
theorem bootstrap_bounded_retry_failure (mysqlReach redisReach : Nat → Bool) (m : Nat)
    (h : ∀ n, mysqlReach n = false) :
    (Bootstrap.entrypointBounded mysqlReach redisReach m).1 = false ∧
    ((Bootstrap.entrypointBounded mysqlReach redisReach m).2.filter
      Bootstrap.isProbe).length = m ∧
    (Bootstrap.entrypointBounded mysqlReach redisReach m).2.filter Bootstrap.isSleep =
      List.replicate m (Bootstrap.BootEvent.sleepSecs 2) ∧
    Bootstrap.BootEvent.prepareDb ∉ (Bootstrap.entrypointBounded mysqlReach redisReach m).2 := by
  obtain ⟨h1, h2, h3, h4⟩ := Bootstrap.waitForDep_all_fail mysqlReach "mysql" h m 0
  have hE : Bootstrap.entrypointBounded mysqlReach redisReach m =
      (false, (Bootstrap.waitForDep mysqlReach "mysql" m 0).2) := by
    simp [Bootstrap.entrypointBounded, h1]
  rw [hE]
  refine ⟨rfl, h2, h3, ?_⟩
  intro hmem
  rcases h4 _ hmem with hp | hp <;>
    simp [Bootstrap.isProbe, Bootstrap.isSleep] at hp

/-- Witness for C9 at three attempts against a never-reachable address. -/
theorem bootstrap_bounded_retry_failure_witness :
    (Bootstrap.entrypointBounded (fun _ => false) (fun _ => false) 3).1 = false ∧
    ((Bootstrap.entrypointBounded (fun _ => false) (fun _ => false) 3).2.filter
      Bootstrap.isProbe).length = 3 ∧
    (Bootstrap.entrypointBounded (fun _ => false) (fun _ => false) 3).2.filter
      Bootstrap.isSleep = List.replicate 3 (Bootstrap.BootEvent.sleepSecs 2) ∧
    Bootstrap.BootEvent.prepareDb ∉
      (Bootstrap.entrypointBounded (fun _ => false) (fun _ => false) 3).2 :=
  bootstrap_bounded_retry_failure (fun _ => false) (fun _ => false) 3 (fun _ => rfl)

end FleetMDM
